import Mathlib

/-!
Verification of the AnalisisForense acquisition/normalization/export core.

Conventions of the shallow embedding:
* raw text and field names are modelled as `List Char` (`Str` below);
  file contents are modelled as `List Nat` (one byte per entry);
* the Python regex classes `\d`, `\w`, `\s` and `str.lower/upper` are modelled
  by their ASCII meaning;
* pandas `NaT` / "no value" is `Option.none`; machine floats never enter the
  embedding: epoch arithmetic is done exactly on `Nat` milliseconds, and the
  `int64`-nanosecond range limit of pandas timestamps is modelled as a bound
  on milliseconds (float rounding exactly at that extreme bound is not
  modelled; no theorem below touches it).
-/

namespace AnalisisForense

abbrev Str := List Char

/-- Python regex `\d` (ASCII model). -/
def pyIsDigit (c : Char) : Bool := '0' ≤ c && c ≤ '9'

/-- Python regex `\w` (ASCII model): letters, digits, underscore. -/
def pyIsWord (c : Char) : Bool :=
  pyIsDigit c || ('a' ≤ c && c ≤ 'z') || ('A' ≤ c && c ≤ 'Z') || c = '_'

/-- Python regex `\s` / `str.strip()` whitespace (ASCII model). -/
def pyIsSpace (c : Char) : Bool :=
  c = ' ' || c = '\t' || c = '\n' || c = '\r' || c = '\x0b' || c = '\x0c'

/-- Numeric value of a digit string (`pd.to_numeric` on a captured digit run). -/
def digitsToNat (l : Str) : Nat :=
  l.foldl (fun acc c => 10 * acc + (c.toNat - '0'.toNat)) 0

/-- `series.str.extract(r'(\d{10,13})')` applied to one value: the leftmost
match of 10 to 13 consecutive digits (greedy, so a longer run is capped at
its first 13 digits), `none` when no position starts 10 consecutive digits. -/
def extractDigits10to13 : Str → Option Str
  | [] => none
  | c :: rest =>
    let run := (c :: rest).takeWhile pyIsDigit
    if 10 ≤ run.length then some (run.take 13) else extractDigits10to13 rest

/-- `series.str.extract(r'(\d{10,})')` applied to one value (used by
`_epoch_ms_to_datetime`): the leftmost maximal run of at least 10 digits. -/
def extractDigits10Plus : Str → Option Str
  | [] => none
  | c :: rest =>
    let run := (c :: rest).takeWhile pyIsDigit
    if 10 ≤ run.length then some run else extractDigits10Plus rest

/-- `pd.Timestamp.max` expressed in whole milliseconds: the int64 nanosecond
bound 9223372036854775807 divided by 10^6.  Values beyond it make
`pd.to_datetime(..., errors="coerce")` return `NaT`. -/
def pandasMaxMs : Nat := 9223372036854

/-- `ForensicDataProcessor._epoch_to_datetime_generic` applied to a single
value, returning milliseconds since the Unix epoch.  Mirrors the source:
extract `(\d{10,13})`, convert to a number, and use the `> 1e11` heuristic
(`factor = 1000` means the number already is milliseconds, otherwise it is
seconds); out-of-range values are coerced to `NaT` (`none`).  On a
single-element series the series maximum used by the source is the value
itself. -/
def epoch_to_datetime_generic (s : Str) : Option Nat :=
  match extractDigits10to13 s with
  | none => none
  | some ds =>
    let n := digitsToNat ds
    let ms := if 10 ^ 11 < n then n else n * 1000
    if ms ≤ pandasMaxMs then some ms else none

/-- `ForensicDataProcessor._epoch_ms_to_datetime` applied to a single value:
extract `(\d{10,})` and always interpret it as milliseconds since the epoch
(the source divides by 1000 and converts with `unit="s"`); out-of-range
values coerce to `NaT` (`none`). -/
def epoch_ms_to_datetime (s : Str) : Option Nat :=
  match extractDigits10Plus s with
  | none => none
  | some ds =>
    let n := digitsToNat ds
    if n ≤ pandasMaxMs then some n else none

/-- A UTC calendar instant (pandas datetimes here are always UTC: conversion
uses `unit="s", origin="unix"` with no timezone). -/
structure UTCInstant where
  year : Nat
  month : Nat
  day : Nat
  hour : Nat
  minute : Nat
  second : Nat
deriving DecidableEq, Repr

/-- Proleptic Gregorian civil date from days since 1970-01-01 (standard
`civil_from_days` algorithm, specialised to non-negative day counts). -/
def civilFromDays (z : Nat) : Nat × Nat × Nat :=
  let z' := z + 719468
  let era := z' / 146097
  let doe := z' % 146097
  let yoe := (doe - doe / 1460 + doe / 36524 - doe / 146096) / 365
  let y := yoe + era * 400
  let doy := doe - (365 * yoe + yoe / 4 - yoe / 100)
  let mp := (5 * doy + 2) / 153
  let d := doy - (153 * mp + 2) / 5 + 1
  let m := if mp < 10 then mp + 3 else mp - 9
  (if m ≤ 2 then y + 1 else y, m, d)

/-- Milliseconds since the epoch to a UTC instant (sub-second part dropped;
the instants asserted below are whole seconds). -/
def msToUTC (ms : Nat) : UTCInstant :=
  let s := ms / 1000
  let days := s / 86400
  let sod := s % 86400
  let c := civilFromDays days
  ⟨c.1, c.2.1, c.2.2, sod / 3600, sod % 3600 / 60, sod % 60⟩

/-- The spec-level `TimestampDecoder.decode`: the generic epoch decoder
rendered as a UTC instant, `none` for "no value". -/
def decodeTimestampUTC (s : Str) : Option UTCInstant :=
  (epoch_to_datetime_generic s).map msToUTC

/-- Spec-side predicate: the input contains a run of (at least) 10
consecutive digits somewhere. -/
def HasDigitRun10 (s : Str) : Prop :=
  ∃ i < s.length, 10 ≤ ((s.drop i).takeWhile pyIsDigit).length

instance (s : Str) : Decidable (HasDigitRun10 s) := by
  unfold HasDigitRun10; infer_instance

/-!  FIELD_RE = `(\w+)=([^=]*?)(?=\s\w+=|$)` and `_parse_row_fields`. -/

/-- The lookahead `(?=\s\w+=|$)` of FIELD_RE: the remaining input is empty,
or starts with a whitespace character followed by a nonempty word run and
then `=`. -/
def fieldStopOk : Str → Bool
  | [] => true
  | c :: rest =>
    pyIsSpace c && !(rest.takeWhile pyIsWord).isEmpty &&
      ((rest.drop (rest.takeWhile pyIsWord).length).head? == some '=')

/-- Length of the lazy value match `([^=]*?)` of FIELD_RE: the smallest
number of non-`=` characters after which the lookahead holds; `none` when an
`=` is reached first (the match at this key fails). -/
def fieldValueEnd : Str → Option Nat
  | [] => some 0
  | c :: rest =>
    if fieldStopOk (c :: rest) then some 0
    else if c = '=' then none
    else (fieldValueEnd rest).map (· + 1)

/-- One FIELD_RE match attempt at the current position: a nonempty word run
(`(\w+)`, greedy — backtracking cannot shorten it because the character after
a shorter run is still a word character, not `=`), a literal `=`, then the
lazy value.  Returns the key, the value and the rest of the input after the
match (the lookahead is not consumed). -/
def tryFieldMatch (l : Str) : Option (Str × Str × Str) :=
  let run := l.takeWhile pyIsWord
  if run.isEmpty then none
  else
    match l.drop run.length with
    | '=' :: afterEq =>
      match fieldValueEnd afterEq with
      | some j => some (run, afterEq.take j, afterEq.drop j)
      | none => none
    | _ => none

/-- `re.findall` scanning loop: try a match at each position, resuming after
the end of every match.  `fuel` only bounds the iteration count; every step
consumes at least one character, so the initial fuel `length + 1` is never
exhausted first. -/
def fieldReFindallAux : Nat → Str → List (Str × Str)
  | 0, _ => []
  | _ + 1, [] => []
  | fuel + 1, c :: rest =>
    match tryFieldMatch (c :: rest) with
    | some (k, v, after) => (k, v) :: fieldReFindallAux fuel after
    | none => fieldReFindallAux fuel rest

/-- `FIELD_RE.findall(line)`. -/
def fieldReFindall (l : Str) : List (Str × Str) :=
  fieldReFindallAux (l.length + 1) l

/-- Python `str.strip()` (ASCII whitespace model). -/
def pyStripWs (l : Str) : Str :=
  ((l.dropWhile pyIsSpace).reverse.dropWhile pyIsSpace).reverse

/-- The characters stripped by `rstrip(",;")`. -/
def isCommaSemi (c : Char) : Bool := c = ',' || c = ';'

/-- Python `str.rstrip(",;")`. -/
def pyRstripCommaSemi (l : Str) : Str :=
  (l.reverse.dropWhile isCommaSemi).reverse

/-- The per-value cleanup of `_parse_row_fields`: `v.strip().rstrip(",;")`. -/
def stripFieldValue (v : Str) : Str := pyRstripCommaSemi (pyStripWs v)

/-- Python `dict` insertion: an existing key keeps its position but gets the
new value, a new key is appended. -/
def dictInsert (d : List (Str × Str)) (k v : Str) : List (Str × Str) :=
  if d.any (fun p => p.1 == k) then
    d.map (fun p => if p.1 == k then (p.1, v) else p)
  else d ++ [(k, v)]

/-- A Python dict comprehension over a pair list (later occurrences of a key
overwrite earlier ones). -/
def dictOfPairs (ps : List (Str × Str)) : List (Str × Str) :=
  ps.foldl (fun d p => dictInsert d p.1 p.2) []

/-- `ForensicDataProcessor._parse_row_fields`. -/
def parse_row_fields (line : Str) : List (Str × Str) :=
  dictOfPairs ((fieldReFindall line).map fun p => (p.1, stripFieldValue p.2))

/-- Lookup in an association list with string keys (Python `dict[key]` /
`dict.get`): the value of the first — in a dict, unique — entry whose key
matches. -/
def dictLookup {β : Type} : List (Str × β) → Str → Option β
  | [], _ => none
  | (a, b) :: t, k => if k = a then some b else dictLookup t k

/-- `f.get(key, "")` on a parsed field dict. -/
def dictGetD (d : List (Str × Str)) (k : Str) (dflt : Str) : Str :=
  (dictLookup d k).getD dflt

/-- The value of the last occurrence of a key in a raw match list (what the
spec means by "the last occurrence wins"). -/
def lastValue (ps : List (Str × Str)) (k : Str) : Option Str :=
  ((ps.filter (fun p => p.1 == k)).getLast?).map (fun p => p.2)

/-!  Line splitting and the Row-marker loaders. -/

/-- Python `str.splitlines()` (restricted to the `\n`, `\r`, `\r\n`
terminators that occur in these dumps): terminators are dropped, a trailing
terminator produces no extra empty line. -/
def pySplitlinesAux : Str → Str → List Str
  | [], acc => if acc.isEmpty then [] else [acc.reverse]
  | '\r' :: '\n' :: rest, acc => acc.reverse :: pySplitlinesAux rest []
  | '\r' :: rest, acc => acc.reverse :: pySplitlinesAux rest []
  | '\n' :: rest, acc => acc.reverse :: pySplitlinesAux rest []
  | c :: rest, acc => pySplitlinesAux rest (c :: acc)

def pySplitlines (l : Str) : List Str := pySplitlinesAux l []

/-- `line.startswith(pre)`. -/
def startsWithChars (pre l : Str) : Bool := l.take pre.length == pre

/-- The marker filter of the loaders: `line.startswith("Row:")`. -/
def isRowLine (l : Str) : Bool := startsWithChars "Row:".data l

/-- The raw field dict one SMS row is built from (`load_sms`, the dict
literal with keys numero / fecha_epoch_ms / tipo_codigo / mensaje). -/
structure SmsRow where
  numero : Str
  fecha_epoch_ms : Str
  tipo_codigo : Str
  mensaje : Str
deriving DecidableEq

def smsRowOfFields (f : List (Str × Str)) : SmsRow :=
  ⟨dictGetD f "address".data [], dictGetD f "date".data [],
   dictGetD f "type".data [], dictGetD f "body".data []⟩

/-- One row of the final, canonical SMS table (the five columns selected at
the end of `load_sms`). -/
structure SmsOut where
  fecha_hora : Option Nat
  numero : Str
  tipo_codigo : Str
  tipo_descripcion : Str
  mensaje : Str
deriving DecidableEq

/-- `tipo_map` of `load_sms`. -/
def tipo_map_sms : List (Str × Str) :=
  [("1".data, "RECIBIDO (INBOX)".data),
   ("2".data, "ENVIADO (SENT)".data),
   ("3".data, "BORRADOR (DRAFT)".data),
   ("4".data, "OUTBOX".data),
   ("5".data, "ENVIANDO".data),
   ("6".data, "ENVIADO_FALLIDO".data)]

def smsOutOfRow (r : SmsRow) : SmsOut :=
  ⟨epoch_ms_to_datetime r.fecha_epoch_ms, r.numero, r.tipo_codigo,
   (dictLookup tipo_map_sms r.tipo_codigo).getD "DESCONOCIDO".data,
   r.mensaje⟩

/-- The key order used by `sort_values`: ascending on the decoded timestamp
(rows with an undecodable timestamp are handled separately, see
`sort_values_na_last`). -/
def sortKeyLe (key : α → Option Nat) (a b : α) : Prop :=
  (key a).getD 0 ≤ (key b).getD 0

instance (key : α → Option Nat) : DecidableRel (sortKeyLe key) :=
  fun _ _ => Nat.decLe _ _

instance (key : α → Option Nat) : IsTotal α (sortKeyLe key) :=
  ⟨fun _ _ => Nat.le_total _ _⟩

instance (key : α → Option Nat) : IsTrans α (sortKeyLe key) :=
  ⟨fun _ _ _ => Nat.le_trans⟩

/-- pandas `df.sort_values(col)` with its defaults (`ascending=True`,
`na_position="last"`): `nargsort` argsorts the non-null values ascending and
appends the indices of the null entries in their original order. -/
def sort_values_na_last (key : α → Option Nat) (rows : List α) : List α :=
  List.insertionSort (sortKeyLe key) (rows.filter fun r => (key r).isSome)
    ++ rows.filter (fun r => (key r).isNone)

/-- `load_sms` before the final `sort_values` (parse the Row lines, build
the field dicts, decode the timestamp, map the type code). -/
def load_sms_unsorted (text : Str) : List SmsOut :=
  (((pySplitlines text).filter isRowLine).map
    (fun line => smsRowOfFields (parse_row_fields line))).map smsOutOfRow

/-- `ForensicDataProcessor.load_sms` applied to the text of `sms.txt`. -/
def load_sms (text : Str) : List SmsOut :=
  sort_values_na_last (fun r => r.fecha_hora) (load_sms_unsorted text)

/-- The raw field dict one call-log row is built from (`load_calllog`). -/
structure CallRow where
  numero : Str
  nombre_cache : Str
  fecha_epoch_ms : Str
  tipo_codigo : Str
  duracion_seg : Str
deriving DecidableEq

def callRowOfFields (f : List (Str × Str)) : CallRow :=
  ⟨dictGetD f "number".data [], dictGetD f "name".data [],
   dictGetD f "date".data [], dictGetD f "type".data [],
   dictGetD f "duration".data []⟩

/-- One row of the final call-log table (the six columns selected at the end
of `load_calllog`). -/
structure CallOut where
  fecha_hora : Option Nat
  numero : Str
  nombre_cache : Str
  tipo_codigo : Str
  tipo_descripcion : Str
  duracion_seg : Nat
deriving DecidableEq

/-- `tipo_llamada_map` of `load_calllog`. -/
def tipo_llamada_map : List (Str × Str) :=
  [("1".data, "ENTRANTE".data),
   ("2".data, "SALIENTE".data),
   ("3".data, "PERDIDA".data),
   ("4".data, "BUZON_VOZ".data),
   ("5".data, "RECHAZADA".data),
   ("6".data, "BLOQUEADA".data),
   ("7".data, "RESPONDIDA_EXTERNAMENTE".data)]

/-- `str.extract(r"(\d+)")` on one value: leftmost maximal run of at least
one digit. -/
def extractDigits1Plus : Str → Option Str
  | [] => none
  | c :: rest =>
    let run := (c :: rest).takeWhile pyIsDigit
    if 1 ≤ run.length then some run else extractDigits1Plus rest

/-- Duration cleanup of `load_calllog`: extract `(\d+)`, `to_numeric` with
coercion, `fillna(0)`. -/
def parseDuracion (s : Str) : Nat :=
  match extractDigits1Plus s with
  | none => 0
  | some d => digitsToNat d

def callOutOfRow (r : CallRow) : CallOut :=
  ⟨epoch_ms_to_datetime r.fecha_epoch_ms, r.numero, r.nombre_cache,
   r.tipo_codigo,
   (dictLookup tipo_llamada_map r.tipo_codigo).getD "DESCONOCIDO".data,
   parseDuracion r.duracion_seg⟩

/-- `load_calllog` before the final `sort_values`. -/
def load_calllog_unsorted (text : Str) : List CallOut :=
  (((pySplitlines text).filter isRowLine).map
    (fun line => callRowOfFields (parse_row_fields line))).map callOutOfRow

/-- `ForensicDataProcessor.load_calllog` applied to the text of
`calllog.txt`. -/
def load_calllog (text : Str) : List CallOut :=
  sort_values_na_last (fun r => r.fecha_hora) (load_calllog_unsorted text)

/-!  `_normalize_exif_df`, modelled at the level of its column list (the
renaming and reordering act on column names; cell values ride along
unchanged). -/

/-- Python `str.lower()` (ASCII model). -/
def lowerChar (c : Char) : Char :=
  if 'A' ≤ c ∧ c ≤ 'Z' then Char.ofNat (c.toNat + 32) else c

def lowerStr (s : Str) : Str := s.map lowerChar

/-- `lower_cols = {c.lower(): c for c in df.columns}`: for a lowercase name,
the original column (the last one when two columns collide in lowercase,
because dict insertion overwrites). -/
def lookupLowerCol (cols : List Str) (n : Str) : Option Str :=
  (cols.filter (fun c => lowerStr c == n)).getLast?

/-- The `pick(*names)` helper of `_normalize_exif_df`: the first candidate
name present in `lower_cols`, returned as the original column name. -/
def pickCol (cols : List Str) : List Str → Option Str
  | [] => none
  | n :: ns =>
    match lookupLowerCol cols n with
    | some c => some c
    | none => pickCol cols ns

/-- The `rename_map` of `_normalize_exif_df` as an association list from
original column name to canonical name. -/
def exifRenamePairs (cols : List Str) : List (Str × Str) :=
  (match pickCol cols (["file", "path", "ruta", "file_path"].map (·.data)) with
   | some c => [(c, "ruta_archivo".data)] | none => []) ++
  (match pickCol cols (["file_name", "filename", "nombre_archivo", "name"].map (·.data)) with
   | some c => [(c, "nombre_archivo".data)] | none => []) ++
  (match pickCol cols (["mime_type", "content_type", "tipo"].map (·.data)) with
   | some c => [(c, "tipo_medio".data)] | none => []) ++
  (match pickCol cols (["datetime_original", "date_time_original", "fecha_hora_toma", "date_taken"].map (·.data)) with
   | some c => [(c, "fecha_hora_toma".data)] | none => []) ++
  (match pickCol cols (["gps_lat", "gps_latitude", "lat", "latitude"].map (·.data)) with
   | some c => [(c, "gps_latitud".data)] | none => []) ++
  (match pickCol cols (["gps_lon", "gps_longitude", "lon", "lng", "longitude"].map (·.data)) with
   | some c => [(c, "gps_longitud".data)] | none => []) ++
  (match pickCol cols (["artist_owner", "artist", "author", "creador"].map (·.data)) with
   | some c => [(c, "posible_autor".data)] | none => []) ++
  (match pickCol cols (["make", "camera_make", "fabricante"].map (·.data)) with
   | some c => [(c, "camara_fabricante".data)] | none => []) ++
  (match pickCol cols (["model", "camera_model", "modelo"].map (·.data)) with
   | some c => [(c, "camara_modelo".data)] | none => [])

/-- `df.rename(columns=rename_map)` on one column name. -/
def exifRename (cols : List Str) (c : Str) : Str :=
  (dictLookup (exifRenamePairs cols) c).getD c

/-- The `preferidas` list of `_normalize_exif_df`. -/
def exifPreferidas : List Str :=
  ["ruta_archivo", "nombre_archivo", "tipo_medio", "fecha_hora_toma",
   "gps_latitud", "gps_longitud", "posible_autor", "camara_fabricante",
   "camara_modelo"].map (·.data)

/-- `_normalize_exif_df` at the column level: rename, then
`orden = [c for c in preferidas if c in df.columns] + [c for c in df.columns
if c not in preferidas]` and the final `df[orden]` projection. -/
def normalize_exif_df_cols (cols : List Str) : List Str :=
  let renamed := cols.map (exifRename cols)
  exifPreferidas.filter (fun c => renamed.contains c)
    ++ renamed.filter (fun c => !exifPreferidas.contains c)

/-!  The streaming transfer primitive (`adb_exec_out_to_file`) and the
candidate-resolution loops built on it. -/

/-- What one invocation of the external bridge process does: whether the
Python code raises somewhere inside the `try` block, the bridge's exit code,
and how many bytes were streamed into the destination file. -/
structure BridgeRun where
  raises : Bool
  exitCode : Int
  bytes : Nat
deriving DecidableEq

/-- Observable outcome of `RootExtractor.adb_exec_out_to_file` (the no-root
variant has the same structure): the returned boolean, the size of the
destination file (`none` abstracts the unknown partial state left behind
when an exception interrupts the write), and which diagnostic log was
written. -/
structure ExecOutResult where
  ok : Bool
  destSize : Option Nat
  excLogWritten : Bool
  errLogWritten : Bool
deriving DecidableEq

/-- `adb_exec_out_to_file`: stream stdout to the destination file; return
`True` iff the process exited with code 0 and the destination file exists
with a size strictly greater than zero; otherwise write the
`execout_err_*` log and return `False`; on any exception write the
`execout_exc_*` log and return `False`. -/
def adb_exec_out_to_file (r : BridgeRun) : ExecOutResult :=
  if r.raises then
    { ok := false, destSize := none, excLogWritten := true, errLogWritten := false }
  else
    let ok := decide (r.exitCode = 0) && decide (0 < r.bytes)
    { ok := ok, destSize := some r.bytes, excLogWritten := false,
      errLogWritten := !ok }

/-- `RootExtractor.stream_file`: try each candidate source path in order via
`adb_exec_out_to_file`; stop at the first success.  The source returns a
boolean and leaves the transferred file at the destination; here the
successful candidate itself is returned (`none` = the source's `False`). -/
def stream_file (candidates : List α) (probe : α → BridgeRun) : Option α :=
  match candidates with
  | [] => none
  | c :: rest =>
    if (adb_exec_out_to_file (probe c)).ok then some c
    else stream_file rest probe

/-- `ForensicDataProcessor._find_first_existing`: first path (relative to
`base_dir`) that exists, else `none`. -/
def find_first_existing (paths : List Str) (fsExists : Str → Bool) : Option Str :=
  match paths with
  | [] => none
  | p :: rest => if fsExists p then some p else find_first_existing rest fsExists

/-!  Raw custody copy (`exportacion.copy_raw_files` / `_copy_file`),
modelled at the byte level.  File contents are `List Nat` (bytes). -/

/-- Valid second byte of a 3-byte UTF-8 sequence (excludes overlong forms
and surrogates). -/
def utf8Cont2Ok (b b2 : Nat) : Bool :=
  if b = 224 then 160 ≤ b2 && b2 ≤ 191
  else if b = 237 then 128 ≤ b2 && b2 ≤ 159
  else 128 ≤ b2 && b2 ≤ 191

/-- Valid second byte of a 4-byte UTF-8 sequence (excludes overlong forms
and values beyond U+10FFFF). -/
def utf8Cont4Ok (b b2 : Nat) : Bool :=
  if b = 240 then 144 ≤ b2 && b2 ≤ 191
  else if b = 244 then 128 ≤ b2 && b2 ≤ 143
  else 128 ≤ b2 && b2 ≤ 191

/-- Standard UTF-8 decoding with Python's `errors="ignore"` handler: invalid
or truncated sequences are skipped (the offending prefix is dropped), valid
sequences decode normally.  The theorems below only exercise the ASCII and
invalid-start-byte paths.  `fuel` only bounds the iteration count; every
step consumes at least one byte, so the initial fuel `length + 1` used by
`utf8DecodeIgnore` is never exhausted first. -/
def utf8DecodeIgnoreAux : Nat → List Nat → List Char
  | 0, _ => []
  | _ + 1, [] => []
  | fuel + 1, b :: rest =>
    if b < 128 then Char.ofNat b :: utf8DecodeIgnoreAux fuel rest
    else if 194 ≤ b && b ≤ 223 then
      match rest with
      | [] => []
      | b2 :: rest2 =>
        if 128 ≤ b2 && b2 ≤ 191 then
          Char.ofNat ((b - 192) * 64 + (b2 - 128))
            :: utf8DecodeIgnoreAux fuel rest2
        else utf8DecodeIgnoreAux fuel (b2 :: rest2)
    else if 224 ≤ b && b ≤ 239 then
      match rest with
      | [] => []
      | [b2] =>
        if utf8Cont2Ok b b2 then [] else utf8DecodeIgnoreAux fuel [b2]
      | b2 :: b3 :: rest3 =>
        if utf8Cont2Ok b b2 then
          if 128 ≤ b3 && b3 ≤ 191 then
            Char.ofNat ((b - 224) * 4096 + (b2 - 128) * 64 + (b3 - 128))
              :: utf8DecodeIgnoreAux fuel rest3
          else utf8DecodeIgnoreAux fuel (b3 :: rest3)
        else utf8DecodeIgnoreAux fuel (b2 :: b3 :: rest3)
    else if 240 ≤ b && b ≤ 244 then
      match rest with
      | [] => []
      | [b2] => if utf8Cont4Ok b b2 then [] else utf8DecodeIgnoreAux fuel [b2]
      | [b2, b3] =>
        if utf8Cont4Ok b b2 then
          if 128 ≤ b3 && b3 ≤ 191 then [] else utf8DecodeIgnoreAux fuel [b3]
        else utf8DecodeIgnoreAux fuel [b2, b3]
      | b2 :: b3 :: b4 :: rest4 =>
        if utf8Cont4Ok b b2 then
          if 128 ≤ b3 && b3 ≤ 191 then
            if 128 ≤ b4 && b4 ≤ 191 then
              Char.ofNat ((b - 240) * 262144 + (b2 - 128) * 4096
                + (b3 - 128) * 64 + (b4 - 128))
                :: utf8DecodeIgnoreAux fuel rest4
            else utf8DecodeIgnoreAux fuel (b4 :: rest4)
          else utf8DecodeIgnoreAux fuel (b3 :: b4 :: rest4)
        else utf8DecodeIgnoreAux fuel (b2 :: b3 :: b4 :: rest4)
    else utf8DecodeIgnoreAux fuel rest

def utf8DecodeIgnore (l : List Nat) : List Char :=
  utf8DecodeIgnoreAux (l.length + 1) l

/-- Standard UTF-8 encoding of one scalar value. -/
def utf8EncodeChar (c : Char) : List Nat :=
  let n := c.toNat
  if n < 128 then [n]
  else if n < 2048 then [192 + n / 64, 128 + n % 64]
  else if n < 65536 then [224 + n / 4096, 128 + n / 64 % 64, 128 + n % 64]
  else [240 + n / 262144, 128 + n / 4096 % 64, 128 + n / 64 % 64, 128 + n % 64]

def utf8Encode (l : List Char) : List Nat :=
  (l.map utf8EncodeChar).flatten

/-- Universal-newline translation performed by `Path.read_text` (text mode
with `newline=None`): `\r\n` and lone `\r` become `\n`. -/
def universalNewlines : List Char → List Char
  | [] => []
  | c :: rest =>
    if c = '\r' then
      match rest with
      | '\n' :: rest2 => '\n' :: universalNewlines rest2
      | other => '\n' :: universalNewlines other
    else c :: universalNewlines rest

/-- `exportacion._copy_file` on the bytes of an existing source file:
`read_text(encoding="utf-8", errors="ignore")` (UTF-8 decode dropping
invalid bytes, plus universal-newline translation) followed by
`write_text(..., encoding="utf-8")` (on a POSIX host, where writing
translates `\n` to itself). -/
def copy_file_bytes (src : List Nat) : List Nat :=
  utf8Encode (universalNewlines (utf8DecodeIgnore src))

/-- `logical_names`, the fixed manifest taken from `logical_dir`. -/
def logical_names : List Str :=
  ["contacts.txt", "calllog.txt", "sms.txt", "calendar_events.txt",
   "downloads.txt"].map (·.data)

/-- `system_names`, the fixed manifest taken from `base_dir / "system"`. -/
def system_names : List Str :=
  ["dumpsys_location.txt", "dumpsys_wifi.txt", "ip_addr.txt", "ip_route.txt",
   "netcfg.txt", "logcat_dump.txt", "bugreport.zip"].map (·.data)

/-- `src.suffix.lower() == ".zip"` (the name ends in `.zip`, case
insensitively; a bare ".zip" never occurs in the manifests). -/
def hasZipSuffix (name : Str) : Bool :=
  startsWithChars ".zip".data.reverse (lowerStr name).reverse

/-- Copying of one manifest entry: absent source → no destination file and
no error; a `.zip` source is copied verbatim (`read_bytes`/`write_bytes`);
any other source goes through `_copy_file`. -/
def copyRawEntry (content : Option (List Nat)) (name : Str) : Option (List Nat) :=
  match content with
  | none => none
  | some bytes =>
    if hasZipSuffix name then some bytes else some (copy_file_bytes bytes)

/-- `exportacion.copy_raw_files` as a map from destination file name to its
content: the logical manifest (plus `extra_logical_files`) is copied from
`logical_dir`, then the system manifest from `base_dir/system` (written
second, so it wins when the same name is produced by both loops). -/
def copy_raw_files (logicalFs sysFs : Str → Option (List Nat))
    (extra : List Str) : Str → Option (List Nat) :=
  fun name =>
    let sysOut :=
      if name ∈ system_names then copyRawEntry (sysFs name) name else none
    let logOut :=
      if name ∈ logical_names ++ extra then copyRawEntry (logicalFs name) name
      else none
    sysOut.orElse (fun _ => logOut)

/-!  Error flow of `ForensicDataProcessor.load_all`.  The loaders based on
`read_text_safe` / `_parse_row_fields` (sms, contactos, llamadas,
calendario) and those based on `_load_csv` (wifi, navegadores, cuentas,
correos, gps, settings, apps genéricas) are total; the only loaders that
can raise are `load_whatsapp_mensajes`, `load_whatsapp_contactos` and
`load_exif_inventory`, whose `pd.read_csv` call is not guarded by any
try/except.  The model below keeps that sequence, restricted to a
representative subsequence of the artifacts (the omitted loaders are total
and cannot change the error flow); CSV tables are carried as opaque row
lists, and the in-memory normalization applied after a successful parse
(renames / sort) is elided because it cannot raise. -/

/-- A CSV file on disk, as seen by `pd.read_csv`: either well formed with
some parsed rows, or malformed (the message the `ParserError` would carry). -/
inductive CsvData
  | wellFormed (rows : List (List Str))
  | malformed (msg : Str)
deriving DecidableEq

/-- The `pd.read_csv` contract: parsed rows, or a raised `ParserError`. -/
def read_csv : CsvData → Except Str (List (List Str))
  | .wellFormed rows => .ok rows
  | .malformed msg => .error msg

/-- `ForensicDataProcessor._load_csv`: missing file → empty frame, and any
exception from `pd.read_csv` is absorbed into an empty frame. -/
def load_csv : Option CsvData → List (List Str)
  | none => []
  | some d => match read_csv d with
    | .ok rows => rows
    | .error _ => []

/-- `ForensicDataProcessor.load_whatsapp_mensajes`: missing file → empty
frame, otherwise an UNGUARDED `pd.read_csv` whose exception propagates to
the caller. -/
def load_whatsapp_mensajesE (f : Option CsvData) : Except Str (List (List Str)) :=
  match f with
  | none => .ok []
  | some d => read_csv d

/-- `ForensicDataProcessor.load_whatsapp_contactos`: same unguarded
`pd.read_csv`. -/
def load_whatsapp_contactosE (f : Option CsvData) : Except Str (List (List Str)) :=
  match f with
  | none => .ok []
  | some d => read_csv d

/-- `ForensicDataProcessor.load_exif_inventory`: first existing candidate
(here at most one), then an unguarded `pd.read_csv`. -/
def load_exif_inventoryE (f : Option CsvData) : Except Str (List (List Str)) :=
  match f with
  | none => .ok []
  | some d => read_csv d

/-- `ForensicDataProcessor.load_wifi_credentials`: `_find_first_existing`
plus `_load_csv`, hence total. -/
def load_wifi_credentials (f : Option CsvData) : List (List Str) :=
  load_csv f

/-- The case directory as `load_all` sees it: text dumps are the file
contents (`""` when absent, as `read_text_safe` returns), CSV artifacts are
present/absent and possibly malformed. -/
structure CaseFs where
  smsText : Str
  calllogText : Str
  whatsappMessagesCsv : Option CsvData
  whatsappContactsCsv : Option CsvData
  exifCsv : Option CsvData
  wifiCsv : Option CsvData
deriving DecidableEq

/-- `ForensicDataProcessor.load_all`, at the level of which artifacts get an
entry in the returned dict (key and row count, in insertion order).  An
exception raised by an individual loader escapes `load_all` itself — there
is no surrounding try/except — so the artifacts after it are never
processed. -/
def load_all (fs : CaseFs) : Except Str (List (Str × Nat)) := do
  let sms := load_sms fs.smsText
  let llamadas := load_calllog fs.calllogText
  let waMsg ← load_whatsapp_mensajesE fs.whatsappMessagesCsv
  let waCts ← load_whatsapp_contactosE fs.whatsappContactsCsv
  let exif ← load_exif_inventoryE fs.exifCsv
  let wifi := load_wifi_credentials fs.wifiCsv
  pure <|
    (if sms.isEmpty then [] else [("sms".data, sms.length)]) ++
    (if llamadas.isEmpty then [] else [("llamadas".data, llamadas.length)]) ++
    (if waMsg.isEmpty then [] else [("whatsapp_mensajes".data, waMsg.length)]) ++
    (if waCts.isEmpty then [] else [("whatsapp_contactos".data, waCts.length)]) ++
    (if exif.isEmpty then [] else [("exif_media".data, exif.length)]) ++
    (if wifi.isEmpty then [] else [("wifi_credenciales".data, wifi.length)])

/-!  Workbook export (`exportacion.ForensicExcelReport.build`,
`export_csv_legible`, `export_all_from_dfs`). -/

/-- A normalized table as the exporter receives it. -/
structure DF where
  cols : List Str
  rows : List (List Str)
deriving DecidableEq

/-- pandas `df.empty` (an axis of length 0). -/
def dfEmpty (d : DF) : Bool := d.rows.isEmpty || d.cols.isEmpty

/-- `pd.DataFrame({"INFO": ["Sin registros."]})`, the placeholder sheet body
for an empty table. -/
def placeholderDF : DF := ⟨["INFO".data], [["Sin registros.".data]]⟩

/-- The `df_norm` step of `build`: an empty table is replaced by the
one-row placeholder. -/
def df_norm (d : DF) : DF := if dfEmpty d then placeholderDF else d

/-- Python `str.upper()` (ASCII model). -/
def upperChar (c : Char) : Char :=
  if 'a' ≤ c ∧ c ≤ 'z' then Char.ofNat (c.toNat - 32) else c

def upperStr (s : Str) : Str := s.map upperChar

/-- `FORENSIC_ARTIFACT_META`: artifact key → (sheet name, description). -/
def forensic_artifact_meta : List (Str × Str × Str) :=
  [("sms".data, "SMS_MMS".data,
    "Mensajes SMS/MMS extraídos del dispositivo.".data),
   ("contactos".data, "CONTACTOS".data,
    "Contactos de agenda telefónica.".data),
   ("llamadas".data, "LLAMADAS".data,
    "Registro de llamadas entrantes/salientes/perdidas.".data),
   ("calendario".data, "CALENDARIO".data,
    "Eventos de calendario asociados a cuentas del dispositivo.".data),
   ("whatsapp_mensajes".data, "WHATSAPP_MSG".data,
    "Mensajes de chats de WhatsApp (normalizados por procesador_legible).".data),
   ("whatsapp_contactos".data, "WHATSAPP_CTS".data,
    "Contactos / chats de WhatsApp vinculados.".data),
   ("exif_media".data, "IMAGENES_EXIF".data,
    "Inventario de imágenes/multimedia con metadatos EXIF/GPS.".data),
   ("downloads".data, "DESCARGAS".data,
    "Registros del provider de descargas de Android.".data),
   ("chrome_history".data, "HIST_CHROME".data,
    "Historial de navegación extraído de Google Chrome.".data),
   ("gmail_mensajes".data, "GMAIL".data,
    "Correos electrónicos extraídos de las bases de datos de Gmail.".data),
   ("wifi_redes".data, "WIFI".data,
    "Redes WiFi conocidas / configuraciones de red.".data),
   ("location".data, "UBICACION".data,
    "Registros relacionados con ubicación (GPS / network location).".data),
   ("usagestats".data, "USAGESTATS".data,
    "Estadísticas de uso de aplicaciones (usagestats).".data),
   ("apks".data, "APKS".data,
    "APK extraídas desde el dispositivo.".data),
   ("packages".data, "PAQUETES_APPS".data,
    "Meta de paquetes / aplicaciones instaladas (pm/dumpsys).".data)]

/-- `get_artifact_meta`: the declared meta, or the upper-cased key with the
generic description (its quoting of the key is elided); the sheet name is
truncated to the 31 characters Excel accepts. -/
def get_artifact_meta (key : Str) : Str × Str :=
  match dictLookup forensic_artifact_meta key with
  | some nd => (nd.1.take 31, nd.2)
  | none =>
    ((upperStr key).take 31,
     "Artefacto ".data ++ key ++ " exportado automáticamente.".data)

/-- Lexicographic order on code points, Python `sorted` on strings. -/
def strLe : Str → Str → Bool
  | [], _ => true
  | _ :: _, [] => false
  | c :: a, d :: b =>
    if c.toNat < d.toNat then true
    else if d.toNat < c.toNat then false
    else strLe a b

def dfKeyLe (a b : Str × DF) : Prop := strLe a.1 b.1 = true

instance : DecidableRel dfKeyLe := fun _ _ => instDecidableEqBool _ _

/-- `sorted(self.dfs.items(), key=lambda x: x[0])`. -/
def excel_sorted_items (dfs : List (Str × DF)) : List (Str × DF) :=
  List.insertionSort dfKeyLe dfs

/-- One data sheet of the produced workbook. -/
structure SheetX where
  name : Str
  table : DF
deriving DecidableEq

/-- One row of the RESUMEN sheet. -/
structure ResumenRow where
  hoja : Str
  artefacto : Str
  filas : Nat
  columnas : Nat
  descripcion : Str
deriving DecidableEq

/-- The produced workbook: the per-artifact data sheets plus the RESUMEN
sheet (its row list). -/
structure Workbook where
  dataSheets : List SheetX
  resumen : List ResumenRow
deriving DecidableEq

def buildSheet (k : Str) (d : DF) : SheetX :=
  ⟨(get_artifact_meta k).1, df_norm d⟩

def buildResumenRow (k : Str) (d : DF) : ResumenRow :=
  ⟨(get_artifact_meta k).1, k, (df_norm d).rows.length,
   (df_norm d).cols.length, (get_artifact_meta k).2⟩

/-- `ForensicExcelReport.build`: no tables → no workbook (early return);
otherwise one sheet per artifact in key order, empty tables replaced by the
placeholder, plus the RESUMEN sheet.  `writerOk` models whether the
`pd.ExcelWriter` body succeeds; its failure is absorbed by the surrounding
try/except (only a message is printed), so the function always returns
normally, just without a workbook file. -/
def forensic_excel_build (dfs : List (Str × DF)) (writerOk : Bool) :
    Option Workbook :=
  if dfs.isEmpty then none
  else if writerOk then
    let items := excel_sorted_items dfs
    some ⟨items.map (fun p => buildSheet p.1 p.2),
          items.map (fun p => buildResumenRow p.1 p.2)⟩
  else none

/-- The CSV files written by `export_csv_legible`: the special sms and
llamadas exports (main file plus per-number aggregate when the `numero`
column exists), then one generic file per remaining artifact in key order. -/
def export_csv_legible_files (dfs : List (Str × DF)) : List Str :=
  (match dictLookup dfs "sms".data with
   | some d =>
     "sms_legible.csv".data ::
       (if d.cols.contains "numero".data then
         ["sms_resumen_por_numero.csv".data] else [])
   | none => []) ++
  (match dictLookup dfs "llamadas".data with
   | some d =>
     "llamadas_legible.csv".data ::
       (if d.cols.contains "numero".data then
         ["llamadas_resumen_por_numero.csv".data] else [])
   | none => []) ++
  ((excel_sorted_items dfs).filter
      (fun p => !(p.1 == "sms".data) && !(p.1 == "llamadas".data))).map
    (fun p => p.1 ++ ".csv".data)

/-- Observable outputs of `export_all_from_dfs`. -/
structure ExportOutputs where
  rawCopied : Bool
  csvFiles : List Str
  workbook : Option Workbook
deriving DecidableEq

/-- `exportacion.export_all_from_dfs`: raw copy, then the CSV exports, then
(optionally) the Excel build whose failure is non-fatal and cannot touch the
CSV files already written. -/
def export_all_from_dfs (dfs : List (Str × DF)) (writerOk : Bool)
    (crearExcel : Bool) : ExportOutputs :=
  { rawCopied := true
    csvFiles := export_csv_legible_files dfs
    workbook := if crearExcel then forensic_excel_build dfs writerOk else none }

/-!  Spec-side predicates and concrete sample inputs used by the theorems
below. -/

/-- The spec's row-ordering property for a normalized table `out` produced
from the parse-order rows `orig`: (1) rows with a decoded timestamp are in
ascending timestamp order, (2) every row whose timestamp failed to decode
comes after all rows with a decoded timestamp, (3) the failed rows keep
their original relative order. -/
def NaLastOrdered {α : Type} (key : α → Option Nat) (orig out : List α) : Prop :=
  (∀ i j (hi : i < out.length) (hj : j < out.length), i < j →
    ∀ ti tj, key (out.get ⟨i, hi⟩) = some ti → key (out.get ⟨j, hj⟩) = some tj →
      ti ≤ tj)
  ∧ (∀ i j (hi : i < out.length) (hj : j < out.length), i < j →
      key (out.get ⟨i, hi⟩) = none → key (out.get ⟨j, hj⟩) = none)
  ∧ out.filter (fun r => (key r).isNone) = orig.filter (fun r => (key r).isNone)

/-- Sample `sms.txt` content: two decodable dates (out of order), one
too-short date and one non-numeric date. -/
def smsSample : Str :=
  ("Row: 0 address=+591 date=1735084800000 type=1 body=a\n" ++
   "Row: 1 address=+592 date=173508 type=1 body=b\n" ++
   "Row: 2 address=+593 date=1735084700000 type=2 body=c\n" ++
   "Row: 3 address=+594 date=xx type=9 body=d").data

/-- Sample `calllog.txt` content: an incoming call (type 1) and a call with
the unmapped type code 99. -/
def callSample : Str :=
  ("Row: 0 number=111 name=A date=1735084800000 type=1 duration=5\n" ++
   "Row: 1 number=222 name=B date=1735084800001 type=99 duration=7").data

/-- Sample marker line: a multi-word value ending at the next `key=` token,
and a repeated key. -/
def rowSampleLine : Str :=
  "Row: 0 _id=7 body=Hola mundo, que tal x=1 x=2".data

/-- A filesystem with no files. -/
def emptyFs : Str → Option (List Nat) := fun _ => none

/-- A logical dir whose `contacts.txt` holds the bytes `a CR b`. -/
def crFsSample : Str → Option (List Nat) :=
  fun n => if n = "contacts.txt".data then some [97, 13, 98] else none

/-- A system dir whose `bugreport.zip` holds four binary bytes (including an
invalid-UTF-8 byte). -/
def zipFsSample : Str → Option (List Nat) :=
  fun n => if n = "bugreport.zip".data then some [80, 75, 0, 255] else none

/-- A case whose WhatsApp messages CSV is malformed while sms, exif and wifi
artifacts are present (the wifi CSV malformed as well, to contrast the
absorbing `_load_csv` path). -/
def caseFsMalformedWa : CaseFs :=
  { smsText := "Row: 0 address=+591 date=1735084800000 type=1 body=hola".data
    calllogText := []
    whatsappMessagesCsv := some (.malformed "ParserError".data)
    whatsappContactsCsv := none
    exifCsv := some (.wellFormed [["f".data]])
    wifiCsv := some (.malformed "bad".data) }

/-- The same case with a well-formed WhatsApp messages CSV. -/
def caseFsOkWa : CaseFs :=
  { caseFsMalformedWa with whatsappMessagesCsv := some (.wellFormed [["m".data]]) }

/-- A sample probe environment for candidate resolution: candidate 0 makes
the bridge raise, candidate 1 exits nonzero, all others stream 5 bytes with
exit code 0. -/
def probeSample : Nat → BridgeRun :=
  fun n =>
    if n = 0 then ⟨true, 0, 5⟩
    else if n = 1 then ⟨false, 1, 5⟩
    else ⟨false, 0, 5⟩

/-- Five non-empty tables and one empty table (whatsapp_mensajes). -/
def sixTables : List (Str × DF) :=
  [("sms".data, ⟨["fecha_hora".data, "numero".data], [["x".data, "1".data]]⟩),
   ("contactos".data, ⟨["nombre".data], [["a".data]]⟩),
   ("llamadas".data, ⟨["numero".data], [["2".data]]⟩),
   ("calendario".data, ⟨["inicio".data], [["c".data]]⟩),
   ("exif_media".data, ⟨["ruta_archivo".data], [["p".data]]⟩),
   ("whatsapp_mensajes".data, ⟨["fecha_hora".data], []⟩)]

/-!  Helper lemmas (shared by several claim theorems). -/

theorem dictLookup_cons (a1 : Str) (a2 : β) (t : List (Str × β)) (k : Str) :
    dictLookup ((a1, a2) :: t) k = if k = a1 then some a2 else dictLookup t k := rfl

theorem dictLookup_map_replaceValue (d : List (Str × Str)) (k v k' : Str) :
    dictLookup (d.map fun p => if p.1 == k then (p.1, v) else p) k'
      = if k' = k then Option.map (fun _ => v) (dictLookup d k)
        else dictLookup d k' := by
  induction d with
  | nil => simp [dictLookup]
  | cons a t ih =>
    rcases a with ⟨a1, a2⟩
    simp only [List.map_cons, beq_iff_eq] at ih ⊢
    by_cases hak : a1 = k
    · subst hak
      by_cases hk : k' = a1
      · subst hk
        simp [dictLookup_cons, ih]
      · simp [dictLookup_cons, hk, ih]
    · have hka : ¬ k = a1 := fun h => hak h.symm
      by_cases hk : k' = a1
      · subst hk
        have hkk : ¬ k' = k := hak
        simp [dictLookup_cons, hak, hkk]
      · by_cases hkk : k' = k
        · subst hkk
          simp [dictLookup_cons, hak, hk, hka, ih]
        · simp [dictLookup_cons, hak, hk, hka, hkk, ih]

theorem dictLookup_of_any_eq_false (d : List (Str × Str)) (k : Str)
    (h : d.any (fun p => p.1 == k) = false) : dictLookup d k = none := by
  induction d with
  | nil => rfl
  | cons a t ih =>
    rcases a with ⟨a1, a2⟩
    rw [List.any_cons, Bool.or_eq_false_iff] at h
    have h1 : ¬ a1 = k := beq_eq_false_iff_ne.mp h.1
    have hk : ¬ k = a1 := fun he => h1 he.symm
    rw [dictLookup_cons, if_neg hk]
    exact ih h.2

theorem dictLookup_append_new (d : List (Str × Str)) (k v k' : Str) :
    dictLookup (d ++ [(k, v)]) k'
      = if k' = k then (dictLookup d k').orElse (fun _ => some v)
        else dictLookup d k' := by
  induction d with
  | nil => by_cases hk : k' = k <;> simp [dictLookup, hk]
  | cons a t ih =>
    rcases a with ⟨a1, a2⟩
    simp only [List.cons_append, dictLookup_cons]
    by_cases hk : k' = a1
    · by_cases hkk : k' = k <;> simp [hk, hkk]
    · simp [hk, ih]

theorem isSome_dictLookup_of_any (d : List (Str × Str)) (k : Str)
    (h : d.any (fun p => p.1 == k) = true) : (dictLookup d k).isSome := by
  induction d with
  | nil => simp at h
  | cons a t ih =>
    rcases a with ⟨a1, a2⟩
    by_cases hk : k = a1
    · rw [dictLookup_cons, if_pos hk]; rfl
    · rw [dictLookup_cons, if_neg hk]
      apply ih
      rw [List.any_cons] at h
      rcases Bool.or_eq_true_iff.mp h with h1 | h2
      · exact absurd (beq_iff_eq.mp h1) (fun he => hk he.symm)
      · exact h2

/-- Python dict semantics of `dictInsert` at the lookup level: after an
insertion, the inserted key maps to the new value and every other key is
untouched. -/
theorem lookup_dictInsert (d : List (Str × Str)) (k v k' : Str) :
    dictLookup (dictInsert d k v) k'
      = if k' = k then some v else dictLookup d k' := by
  unfold dictInsert
  cases h : d.any (fun p => p.1 == k) with
  | true =>
    rw [if_pos rfl, dictLookup_map_replaceValue]
    by_cases hk : k' = k
    · subst hk
      rcases Option.isSome_iff_exists.mp (isSome_dictLookup_of_any d k' h) with ⟨b, hb⟩
      simp [hb]
    · simp [hk]
  | false =>
    rw [if_neg (by simp), dictLookup_append_new]
    by_cases hk : k' = k
    · subst hk
      rw [if_pos rfl, if_pos rfl, dictLookup_of_any_eq_false d k' h]
      rfl
    · rw [if_neg hk, if_neg hk]

theorem mem_dictInsert (d : List (Str × Str)) (k v : Str) :
    ∀ p ∈ dictInsert d k v, p ∈ d ∨ (p.1 = k ∧ p.2 = v) := by
  intro p hp
  unfold dictInsert at hp
  cases h : d.any (fun q => q.1 == k) with
  | true =>
    rw [if_pos (by simp [h])] at hp
    rcases List.mem_map.mp hp with ⟨q, hq, hqe⟩
    by_cases hqk : q.1 = k
    · right
      rw [if_pos (by simpa using hqk)] at hqe
      rw [← hqe]
      exact ⟨hqk, rfl⟩
    · left
      rw [if_neg (by simpa using hqk)] at hqe
      rwa [← hqe]
  | false =>
    rw [if_neg (by simp [h])] at hp
    rcases List.mem_append.mp hp with h1 | h2
    · exact Or.inl h1
    · right
      rcases List.mem_singleton.mp h2 with rfl
      exact ⟨rfl, rfl⟩

theorem dictOfPairs_concat (ps : List (Str × Str)) (p : Str × Str) :
    dictOfPairs (ps ++ [p]) = dictInsert (dictOfPairs ps) p.1 p.2 := by
  simp [dictOfPairs, List.foldl_append]

/-- The dict built by a comprehension keeps, for every key, the value of the
key's LAST occurrence in the underlying pair list. -/
theorem lookup_dictOfPairs (ps : List (Str × Str)) (k : Str) :
    dictLookup (dictOfPairs ps) k = lastValue ps k := by
  induction ps using List.reverseRecOn with
  | nil => simp [dictOfPairs, lastValue, dictLookup]
  | append_singleton ps p ih =>
    rcases p with ⟨a, b⟩
    rw [dictOfPairs_concat, lookup_dictInsert]
    unfold lastValue
    rw [List.filter_append]
    by_cases hk : k = a
    · subst hk
      rw [if_pos rfl]
      have : List.filter (fun p => p.1 == k) [(k, b)] = [(k, b)] := by
        simp [List.filter]
      rw [this, List.getLast?_concat]
      rfl
    · rw [if_neg hk]
      have : List.filter (fun p => p.1 == k) [(a, b)] = [] := by
        have : ((a, b).1 == k) = false := beq_eq_false_iff_ne.mpr (fun he => hk he.symm)
        simp [List.filter, this]
      rw [this, List.append_nil]
      exact ih

theorem mem_dictOfPairs (ps : List (Str × Str)) :
    ∀ p ∈ dictOfPairs ps, ∃ q ∈ ps, q.1 = p.1 ∧ q.2 = p.2 := by
  induction ps using List.reverseRecOn with
  | nil => simp [dictOfPairs]
  | append_singleton ps q ih =>
    intro p hp
    rw [dictOfPairs_concat] at hp
    rcases mem_dictInsert _ _ _ p hp with h1 | h2
    · rcases ih p h1 with ⟨r, hr, he⟩
      exact ⟨r, List.mem_append_left _ hr, he⟩
    · exact ⟨q, List.mem_append_right _ (List.mem_singleton.mpr rfl),
        h2.1.symm, h2.2.symm⟩

theorem head?_dropWhile_false (p : α → Bool) :
    ∀ (l : List α) (a : α), (l.dropWhile p).head? = some a → p a = false := by
  intro l
  induction l with
  | nil => intro a h; simp at h
  | cons c t ih =>
    intro a h
    by_cases hc : p c
    · rw [List.dropWhile_cons_of_pos hc] at h
      exact ih a h
    · rw [List.dropWhile_cons_of_neg hc] at h
      simp only [List.head?_cons, Option.some_inj] at h
      rw [← h]
      exact Bool.of_not_eq_true hc

/-- The result of `rstrip(",;")` never ends in `,` or `;`. -/
theorem getLast?_pyRstripCommaSemi (l : Str) (c : Char)
    (h : (pyRstripCommaSemi l).getLast? = some c) : isCommaSemi c = false := by
  unfold pyRstripCommaSemi at h
  rw [List.getLast?_reverse] at h
  exact head?_dropWhile_false isCommaSemi _ c h

theorem mem_sorted_part {α : Type} (key : α → Option Nat) (rows : List α) :
    ∀ r ∈ List.insertionSort (sortKeyLe key)
        (rows.filter fun x => (key x).isSome), (key r).isSome := by
  intro r hr
  have hperm := List.perm_insertionSort (sortKeyLe key)
    (rows.filter fun x => (key x).isSome)
  exact (List.mem_filter.mp (hperm.mem_iff.mp hr)).2

theorem mem_sort_values_na_last {α : Type} (key : α → Option Nat)
    (rows : List α) (r : α) :
    r ∈ sort_values_na_last key rows ↔ r ∈ rows := by
  unfold sort_values_na_last
  rw [List.mem_append]
  constructor
  · rintro (h | h)
    · have hperm := List.perm_insertionSort (sortKeyLe key)
        (rows.filter fun x => (key x).isSome)
      exact (List.mem_filter.mp (hperm.mem_iff.mp h)).1
    · exact (List.mem_filter.mp h).1
  · intro h
    cases hk : (key r).isSome with
    | true =>
      left
      have hperm := List.perm_insertionSort (sortKeyLe key)
        (rows.filter fun x => (key x).isSome)
      exact hperm.mem_iff.mpr (List.mem_filter.mpr ⟨h, hk⟩)
    | false =>
      right
      refine List.mem_filter.mpr ⟨h, ?_⟩
      cases hkr : key r with
      | none => rfl
      | some t => rw [hkr] at hk; simp at hk

theorem sort_values_na_last_ordered {α : Type} (key : α → Option Nat)
    (rows : List α) : NaLastOrdered key rows (sort_values_na_last key rows) := by
  have hsorted := List.sorted_insertionSort (sortKeyLe key)
    (rows.filter fun x => (key x).isSome)
  set s := List.insertionSort (sortKeyLe key)
    (rows.filter fun x => (key x).isSome) with hs
  set t := rows.filter (fun x => (key x).isNone) with ht
  have hout : sort_values_na_last key rows = s ++ t := rfl
  have hsome : ∀ r ∈ s, (key r).isSome := mem_sorted_part key rows
  have hnone : ∀ r ∈ t, key r = none := by
    intro r hr
    have := (List.mem_filter.mp hr).2
    cases hkr : key r with
    | none => rfl
    | some v => rw [hkr] at this; simp at this
  refine ⟨?_, ?_, ?_⟩
  · intro i j hi hj hij ti tj hti htj
    have hi' : i < (s ++ t).length := hi
    have hj' : j < (s ++ t).length := hj
    have hti' : key ((s ++ t).get ⟨i, hi'⟩) = some ti := hti
    have htj' : key ((s ++ t).get ⟨j, hj'⟩) = some tj := htj
    by_cases hjs : j < s.length
    · have his : i < s.length := lt_trans hij hjs
      rw [List.get_append i his] at hti'
      rw [List.get_append j hjs] at htj'
      have hpair := List.pairwise_iff_get.mp hsorted ⟨i, his⟩ ⟨j, hjs⟩ hij
      unfold sortKeyLe at hpair
      rw [hti', htj'] at hpair
      simpa using hpair
    · exfalso
      have hjl : s.length ≤ j := le_of_not_lt hjs
      have hjt : j - s.length < t.length := by
        have := hj'; rw [List.length_append] at this; omega
      rw [@List.get_append_right _ _ s t hjl hj' hjt] at htj'
      have := hnone _ (List.get_mem t (j - s.length) hjt)
      rw [htj'] at this
      exact Option.noConfusion this
  · intro i j hi hj hij hnonei
    have hi' : i < (s ++ t).length := hi
    have hj' : j < (s ++ t).length := hj
    have hnonei' : key ((s ++ t).get ⟨i, hi'⟩) = none := hnonei
    show key ((s ++ t).get ⟨j, hj'⟩) = none
    by_cases his : i < s.length
    · exfalso
      rw [List.get_append i his] at hnonei'
      have := hsome _ (List.get_mem s i his)
      rw [hnonei'] at this
      simp at this
    · have hil : s.length ≤ i := le_of_not_lt his
      have hjl : s.length ≤ j := le_trans hil (le_of_lt hij)
      have hjt : j - s.length < t.length := by
        have := hj'; rw [List.length_append] at this; omega
      rw [@List.get_append_right _ _ s t hjl hj' hjt]
      exact hnone _ (List.get_mem t (j - s.length) hjt)
  · show (s ++ t).filter (fun r => (key r).isNone)
      = rows.filter (fun r => (key r).isNone)
    rw [List.filter_append]
    have h1 : s.filter (fun r => (key r).isNone) = [] := by
      rw [List.filter_eq_nil]
      intro a ha
      obtain ⟨v, hv⟩ := Option.isSome_iff_exists.mp (hsome a ha)
      rw [hv]
      simp
    have h2 : t.filter (fun r => (key r).isNone) = t := by
      rw [List.filter_eq_self]
      intro a ha
      rw [hnone a ha]
      rfl
    rw [h1, h2, List.nil_append]


/-!  Supporting lemmas for candidate resolution. -/

theorem extract10to13_eq_none (s : Str) (h : ¬ HasDigitRun10 s) :
    extractDigits10to13 s = none := by
  induction s with
  | nil => rfl
  | cons c rest ih =>
    unfold extractDigits10to13
    have h0 : ¬ 10 ≤ ((c :: rest).takeWhile pyIsDigit).length := by
      intro hc
      exact h ⟨0, by simp, by simpa using hc⟩
    simp only [h0, if_false]
    apply ih
    intro hr
    rcases hr with ⟨i, hi, hrun⟩
    exact h ⟨i + 1, by simpa using hi, by simpa using hrun⟩

theorem stream_file_eq_first_ok {α : Type} (probe : α → BridgeRun) :
    ∀ (cs : List α) (i : Nat) (hi : i < cs.length),
      (adb_exec_out_to_file (probe (cs.get ⟨i, hi⟩))).ok = true →
      (∀ j (hj : j < cs.length), j < i →
        (adb_exec_out_to_file (probe (cs.get ⟨j, hj⟩))).ok = false) →
      stream_file cs probe = some (cs.get ⟨i, hi⟩) := by
  intro cs
  induction cs with
  | nil => intro i hi; exact absurd hi (by simp)
  | cons c rest ih =>
    intro i hi hok hprev
    cases i with
    | zero =>
      have hc : (adb_exec_out_to_file (probe c)).ok = true := hok
      unfold stream_file
      rw [hc]
      simp
    | succ i2 =>
      have h0 : (adb_exec_out_to_file (probe c)).ok = false :=
        hprev 0 (by simp) (Nat.succ_pos i2)
      unfold stream_file
      rw [h0]
      simp only [Bool.false_eq_true, if_false]
      exact ih i2 (Nat.lt_of_succ_lt_succ hi) hok
        (fun j hj hji => hprev (j + 1) (Nat.succ_lt_succ hj) (Nat.succ_lt_succ hji))

theorem stream_file_none_iff {α : Type} (probe : α → BridgeRun) :
    ∀ cs : List α, stream_file cs probe = none ↔
      ∀ c ∈ cs, (adb_exec_out_to_file (probe c)).ok = false := by
  intro cs
  induction cs with
  | nil => simp [stream_file]
  | cons c rest ih =>
    unfold stream_file
    cases h : (adb_exec_out_to_file (probe c)).ok with
    | true => simp [h]
    | false => simp [h, ih]

theorem stream_file_probe_congr {α : Type} (p q : α → BridgeRun)
    (h : ∀ c, (adb_exec_out_to_file (p c)).ok = (adb_exec_out_to_file (q c)).ok) :
    ∀ cs : List α, stream_file cs p = stream_file cs q := by
  intro cs
  induction cs with
  | nil => rfl
  | cons c rest ih =>
    unfold stream_file
    rw [h c, ih]

theorem find_first_existing_eq_first (fsE : Str → Bool) :
    ∀ (paths : List Str) (i : Nat) (hi : i < paths.length),
      fsE (paths.get ⟨i, hi⟩) = true →
      (∀ j (hj : j < paths.length), j < i → fsE (paths.get ⟨j, hj⟩) = false) →
      find_first_existing paths fsE = some (paths.get ⟨i, hi⟩) := by
  intro paths
  induction paths with
  | nil => intro i hi; exact absurd hi (by simp)
  | cons c rest ih =>
    intro i hi hok hprev
    cases i with
    | zero =>
      have hc : fsE c = true := hok
      unfold find_first_existing
      rw [hc]
      simp
    | succ i2 =>
      have h0 : fsE c = false := hprev 0 (by simp) (Nat.succ_pos i2)
      unfold find_first_existing
      rw [h0]
      simp only [Bool.false_eq_true, if_false]
      exact ih i2 (Nat.lt_of_succ_lt_succ hi) hok
        (fun j hj hji => hprev (j + 1) (Nat.succ_lt_succ hj) (Nat.succ_lt_succ hji))

theorem find_first_existing_none_iff (fsE : Str → Bool) :
    ∀ paths : List Str, find_first_existing paths fsE = none ↔
      ∀ p ∈ paths, fsE p = false := by
  intro paths
  induction paths with
  | nil => simp [find_first_existing]
  | cons c rest ih =>
    unfold find_first_existing
    cases h : fsE c with
    | true => simp [h]
    | false => simp [h, ih]

/-!  Claim theorems. -/

/-- Claim C1: timestamp decoding is total and uses the 10^11 threshold: an
input without a run of 10 consecutive digits decodes to "no value" (never an
exception); "1735084800000" (milliseconds branch, value above 10^11) and
"1735084800" (seconds branch) both decode to the UTC instant
2024-12-25T00:00:00Z; "abc" decodes to "no value". -/
theorem timestamp_decode_total_threshold :
    (∀ s : Str, ¬ HasDigitRun10 s → decodeTimestampUTC s = none)
    ∧ decodeTimestampUTC "1735084800000".data = some ⟨2024, 12, 25, 0, 0, 0⟩
    ∧ decodeTimestampUTC "1735084800".data = some ⟨2024, 12, 25, 0, 0, 0⟩
    ∧ decodeTimestampUTC "abc".data = none := by
  refine ⟨?_, by decide, by decide, by decide⟩
  intro s h
  unfold decodeTimestampUTC epoch_to_datetime_generic
  rw [extract10to13_eq_none s h]
  rfl

theorem timestamp_decode_total_threshold_witness :
    ¬ HasDigitRun10 "sin digitos 123".data
    ∧ decodeTimestampUTC "sin digitos 123".data = none :=
  ⟨by decide, timestamp_decode_total_threshold.1 _ (by decide)⟩

/-- Claim C3: candidate resolution returns the first reachable candidate:
if candidate `i` succeeds and all earlier candidates fail (whether by a
bridge exception or a negative probe result — both yield `ok = false`),
`stream_file` resolves to candidate `i`; it fails only when every candidate
failed; swapping exception failures for negative-result failures never
changes the resolution; and `_find_first_existing` obeys the same
first-reachable contract for filesystem probes. -/
theorem candidate_resolution_first_reachable :
    (∀ (α : Type) (cs : List α) (probe : α → BridgeRun) (i : Nat)
        (hi : i < cs.length),
      (adb_exec_out_to_file (probe (cs.get ⟨i, hi⟩))).ok = true →
      (∀ j (hj : j < cs.length), j < i →
        (adb_exec_out_to_file (probe (cs.get ⟨j, hj⟩))).ok = false) →
      stream_file cs probe = some (cs.get ⟨i, hi⟩))
    ∧ (∀ (α : Type) (cs : List α) (probe : α → BridgeRun),
        stream_file cs probe = none ↔
          ∀ c ∈ cs, (adb_exec_out_to_file (probe c)).ok = false)
    ∧ (∀ (α : Type) (p q : α → BridgeRun),
        (∀ c, (adb_exec_out_to_file (p c)).ok = (adb_exec_out_to_file (q c)).ok) →
        ∀ cs : List α, stream_file cs p = stream_file cs q)
    ∧ (∀ (paths : List Str) (fsE : Str → Bool) (i : Nat) (hi : i < paths.length),
        fsE (paths.get ⟨i, hi⟩) = true →
        (∀ j (hj : j < paths.length), j < i → fsE (paths.get ⟨j, hj⟩) = false) →
        find_first_existing paths fsE = some (paths.get ⟨i, hi⟩))
    ∧ (∀ (paths : List Str) (fsE : Str → Bool),
        find_first_existing paths fsE = none ↔ ∀ p ∈ paths, fsE p = false) :=
  ⟨fun _ cs probe i hi => stream_file_eq_first_ok probe cs i hi,
   fun _ cs probe => stream_file_none_iff probe cs,
   fun _ p q h => stream_file_probe_congr p q h,
   fun paths fsE i hi => find_first_existing_eq_first fsE paths i hi,
   fun paths fsE => find_first_existing_none_iff fsE paths⟩

theorem candidate_resolution_first_reachable_witness :
    stream_file [0, 1, 2, 3] probeSample = some 2
    ∧ stream_file [0, 1] probeSample = none
    ∧ find_first_existing ["a".data, "b".data]
        (fun p => p == "b".data) = some "b".data := by
  refine ⟨?_, ?_, ?_⟩
  · exact candidate_resolution_first_reachable.1 Nat [0, 1, 2, 3] probeSample 2
      (by decide) (by decide) (by decide)
  · exact (candidate_resolution_first_reachable.2.1 Nat [0, 1] probeSample).mpr
      (by decide)
  · exact candidate_resolution_first_reachable.2.2.2.1
      ["a".data, "b".data] (fun p => p == "b".data) 1 (by decide)
      (by decide) (by decide)

/-- Claim C10: the streaming transfer primitive reports success iff the
bridge exited with code 0 and the destination file exists with a size
strictly greater than zero; a cleanly streamed zero-byte file is therefore
reported as a failure; and on an exception a diagnostic log is written and
failure is returned instead of raising. -/
theorem exec_out_success_criterion :
    (∀ r : BridgeRun, (adb_exec_out_to_file r).ok = true ↔
        (r.raises = false ∧ r.exitCode = 0 ∧ 0 < r.bytes))
    ∧ (∀ r : BridgeRun, r.raises = false → r.bytes = 0 →
        (adb_exec_out_to_file r).ok = false)
    ∧ (∀ r : BridgeRun, r.raises = true →
        (adb_exec_out_to_file r).ok = false
        ∧ (adb_exec_out_to_file r).excLogWritten = true)
    ∧ (∀ r : BridgeRun, r.raises = false →
        (adb_exec_out_to_file r).destSize = some r.bytes) := by
  refine ⟨?_, ?_, ?_, ?_⟩
  · rintro ⟨raises, ec, bytes⟩
    cases raises <;> simp [adb_exec_out_to_file]
  · rintro ⟨raises, ec, bytes⟩ hr hb
    subst hr
    simp only at hb
    subst hb
    simp [adb_exec_out_to_file]
  · rintro ⟨raises, ec, bytes⟩ hr
    subst hr
    simp [adb_exec_out_to_file]
  · rintro ⟨raises, ec, bytes⟩ hr
    subst hr
    simp [adb_exec_out_to_file]

theorem exec_out_success_criterion_witness :
    (adb_exec_out_to_file ⟨false, 0, 0⟩).ok = false
    ∧ (adb_exec_out_to_file ⟨true, 0, 7⟩).ok = false
    ∧ (adb_exec_out_to_file ⟨true, 0, 7⟩).excLogWritten = true
    ∧ (adb_exec_out_to_file ⟨false, 0, 9⟩).destSize = some 9 :=
  ⟨exec_out_success_criterion.2.1 ⟨false, 0, 0⟩ rfl rfl,
   (exec_out_success_criterion.2.2.1 ⟨true, 0, 7⟩ rfl).1,
   (exec_out_success_criterion.2.2.1 ⟨true, 0, 7⟩ rfl).2,
   exec_out_success_criterion.2.2.2 ⟨false, 0, 9⟩ rfl⟩


/-- Claim C7: field-record parsing of one marker line: a value extends until
the next whitespace-delimited `identifier=` token or until end of line
(shown on the sample lines), trailing `,` and `;` are stripped from every
stored value, and when a key occurs more than once in one line the stored
value is that of the last occurrence. -/
theorem field_record_parsing :
    (∀ (line : Str) (k : Str),
        dictLookup (parse_row_fields line) k
          = lastValue ((fieldReFindall line).map fun p =>
              (p.1, stripFieldValue p.2)) k)
    ∧ (∀ (line : Str), ∀ p ∈ parse_row_fields line,
        ∀ c, p.2.getLast? = some c → isCommaSemi c = false)
    ∧ parse_row_fields rowSampleLine
        = [("_id".data, "7".data),
           ("body".data, "Hola mundo, que tal".data),
           ("x".data, "2".data)]
    ∧ parse_row_fields "Row: 1 address=+591, body=hi;".data
        = [("address".data, "+591".data), ("body".data, "hi".data)] := by
  refine ⟨?_, ?_, by decide, by decide⟩
  · intro line k
    exact lookup_dictOfPairs _ k
  · intro line p hp c hc
    rcases mem_dictOfPairs _ p hp with ⟨q, hq, _, hsnd⟩
    rcases List.mem_map.mp hq with ⟨raw, _, hqe⟩
    have hps : p.2 = stripFieldValue raw.2 := by rw [← hsnd, ← hqe]
    rw [hps] at hc
    exact getLast?_pyRstripCommaSemi (pyStripWs raw.2) c hc

theorem field_record_parsing_witness :
    isCommaSemi '1' = false
    ∧ dictLookup (parse_row_fields "Row: 0 a=1 a=2".data) "a".data
        = some "2".data := by
  constructor
  · exact field_record_parsing.2.1 "Row: 1 address=+591, body=hi;".data
      ("address".data, "+591".data) (by decide) '1' (by decide)
  · rw [field_record_parsing.1]
    decide

/-- Claim C6 counterexample: the EXIF normalizer does NOT drop raw fields
that no alias recognizes: the raw column `foo` survives unchanged in the
normalized output (the claim says it should never appear). -/
theorem exif_unrecognized_field_kept :
    normalize_exif_df_cols ["file".data, "foo".data]
      = ["ruta_archivo".data, "foo".data]
    ∧ "foo".data ∈ normalize_exif_df_cols ["file".data, "foo".data]
    ∧ "foo".data ∉ exifPreferidas := by decide

/-- Claim C6 (amended): for the marker-line tables the invariant holds: an
SMS row is built only from the recognized raw fields (address, date, type,
body), so adding any unrecognized raw field to the parsed dict leaves the
canonical row unchanged.  The EXIF normalizer, however, keeps every raw
column: a recognized column is renamed to its canonical name, an
unrecognized one survives under its original name (appended after the
canonical ones) — it is not dropped. -/
theorem schema_normalizer_fields :
    (∀ (f : List (Str × Str)) (k v : Str),
        k ∉ ["address".data, "date".data, "type".data, "body".data] →
        smsRowOfFields (dictInsert f k v) = smsRowOfFields f)
    ∧ (∀ (cols : List Str) (c : Str), c ∈ cols →
        exifRename cols c ∈ normalize_exif_df_cols cols) := by
  constructor
  · intro f k v hk
    simp only [List.mem_cons, List.mem_singleton, not_or] at hk
    obtain ⟨h1, h2, h3, h4, -⟩ := hk
    unfold smsRowOfFields dictGetD
    rw [lookup_dictInsert, lookup_dictInsert, lookup_dictInsert,
      lookup_dictInsert]
    rw [if_neg (fun he => h1 he.symm), if_neg (fun he => h2 he.symm),
      if_neg (fun he => h3 he.symm), if_neg (fun he => h4 he.symm)]
  · intro cols c hc
    unfold normalize_exif_df_cols
    have hmem : exifRename cols c ∈ cols.map (exifRename cols) :=
      List.mem_map_of_mem _ hc
    by_cases hp : exifRename cols c ∈ exifPreferidas
    · refine List.mem_append_left _ (List.mem_filter.mpr ⟨hp, ?_⟩)
      simpa using hmem
    · refine List.mem_append_right _ (List.mem_filter.mpr ⟨hmem, ?_⟩)
      simpa using hp

theorem schema_normalizer_fields_witness :
    smsRowOfFields (dictInsert [("address".data, "+5".data)] "foo".data "bar".data)
      = smsRowOfFields [("address".data, "+5".data)]
    ∧ exifRename ["file".data, "foo".data] "foo".data
        ∈ normalize_exif_df_cols ["file".data, "foo".data] := by
  constructor
  · exact schema_normalizer_fields.1 _ "foo".data "bar".data (by decide)
  · exact schema_normalizer_fields.2 _ "foo".data (by decide)

/-- Claim C5: for the normalized tables with a dominant timestamp field (SMS
and call log), the rows of the produced table are ascending in the decoded
timestamp, every row whose timestamp failed to decode is placed after all
successfully decoded rows, and the failed rows keep their original relative
order among themselves. -/
theorem normalized_row_ordering :
    (∀ text : Str,
      NaLastOrdered (fun r => r.fecha_hora) (load_sms_unsorted text)
        (load_sms text))
    ∧ (∀ text : Str,
      NaLastOrdered (fun r => r.fecha_hora) (load_calllog_unsorted text)
        (load_calllog text)) :=
  ⟨fun text => sort_values_na_last_ordered _ (load_sms_unsorted text),
   fun text => sort_values_na_last_ordered _ (load_calllog_unsorted text)⟩

theorem normalized_row_ordering_witness :
    ((load_sms smsSample).get ⟨0, by decide⟩).fecha_hora = some 1735084700000
    ∧ (1735084700000 : Nat) ≤ 1735084800000
    ∧ ((load_sms smsSample).get ⟨2, by decide⟩).fecha_hora = none
    ∧ ((load_sms smsSample).get ⟨3, by decide⟩).fecha_hora = none
    ∧ (load_sms smsSample).filter (fun r => r.fecha_hora.isNone)
        = (load_sms_unsorted smsSample).filter (fun r => r.fecha_hora.isNone) := by
  have h := normalized_row_ordering.1 smsSample
  refine ⟨by decide, ?_, by decide, ?_, h.2.2⟩
  · exact h.1 0 1 (by decide) (by decide) (by decide) 1735084700000
      1735084800000 (by decide) (by decide)
  · exact h.2.1 2 3 (by decide) (by decide) (by decide) (by decide)

theorem load_calllog_desc (text : Str) :
    ∀ r ∈ load_calllog text,
      r.tipo_descripcion
        = (dictLookup tipo_llamada_map r.tipo_codigo).getD "DESCONOCIDO".data := by
  intro r hr
  have hmem : r ∈ load_calllog_unsorted text :=
    (mem_sort_values_na_last _ _ r).mp hr
  unfold load_calllog_unsorted at hmem
  rcases List.mem_map.mp hmem with ⟨row, _, he⟩
  rw [← he]
  rfl

/-- Claim C8: call-log type-code labelling: a row with code "1" is labelled
"ENTRANTE", and a row whose code is absent from the per-entity lookup table
(such as "99" in the sample) is labelled "DESCONOCIDO" rather than failing
or staying empty. -/
theorem calllog_type_code_labels :
    (∀ text : Str, ∀ r ∈ load_calllog text,
        r.tipo_codigo = "1".data → r.tipo_descripcion = "ENTRANTE".data)
    ∧ (∀ text : Str, ∀ r ∈ load_calllog text,
        dictLookup tipo_llamada_map r.tipo_codigo = none →
        r.tipo_descripcion = "DESCONOCIDO".data)
    ∧ (load_calllog callSample).map (fun r => (r.tipo_codigo, r.tipo_descripcion))
        = [("1".data, "ENTRANTE".data), ("99".data, "DESCONOCIDO".data)] := by
  refine ⟨?_, ?_, by decide⟩
  · intro text r hr hc
    rw [load_calllog_desc text r hr, hc]
    decide
  · intro text r hr hn
    rw [load_calllog_desc text r hr, hn]
    rfl

theorem calllog_type_code_labels_witness :
    ((load_calllog callSample).get ⟨0, by decide⟩).tipo_descripcion
      = "ENTRANTE".data
    ∧ ((load_calllog callSample).get ⟨1, by decide⟩).tipo_descripcion
      = "DESCONOCIDO".data := by
  constructor
  · exact calllog_type_code_labels.1 callSample _ (by decide) (by decide)
  · exact calllog_type_code_labels.2.1 callSample _ (by decide) (by decide)


/-!  Supporting lemmas for the raw custody copy. -/

theorem charOfNat_ascii :
    ∀ b, b < 128 → (Char.ofNat b).toNat = b ∧ (Char.ofNat b = '\r' ↔ b = 13) := by
  decide

theorem utf8DecodeIgnoreAux_ascii :
    ∀ (fuel : Nat) (bs : List Nat), bs.length < fuel → (∀ b ∈ bs, b < 128) →
      utf8DecodeIgnoreAux fuel bs = bs.map Char.ofNat := by
  intro fuel
  induction fuel with
  | zero => intro bs h; simp at h
  | succ f ih =>
    intro bs hlen hb
    cases bs with
    | nil => rfl
    | cons b t =>
      have hb0 : b < 128 := hb b (List.mem_cons_self b t)
      rw [utf8DecodeIgnoreAux.eq_def]
      simp only [if_pos hb0]
      rw [ih t (by simpa using Nat.lt_of_succ_lt_succ hlen)
          (fun x hx => hb x (List.mem_cons_of_mem _ hx))]
      rfl

theorem utf8DecodeIgnore_ascii (bs : List Nat) (h : ∀ b ∈ bs, b < 128) :
    utf8DecodeIgnore bs = bs.map Char.ofNat :=
  utf8DecodeIgnoreAux_ascii (bs.length + 1) bs (Nat.lt_succ_self _) h

theorem universalNewlines_noCR (cs : List Char) (h : ∀ c ∈ cs, ¬ c = '\r') :
    universalNewlines cs = cs := by
  induction cs with
  | nil => rfl
  | cons c t ih =>
    have hc : ¬ c = '\r' := h c (List.mem_cons_self c t)
    rw [universalNewlines.eq_def]
    simp only [if_neg hc]
    rw [ih (fun d hd => h d (List.mem_cons_of_mem _ hd))]

theorem utf8Encode_ascii (cs : List Char) (h : ∀ c ∈ cs, c.toNat < 128) :
    utf8Encode cs = cs.map Char.toNat := by
  induction cs with
  | nil => rfl
  | cons c t ih =>
    have hc : c.toNat < 128 := h c (List.mem_cons_self c t)
    unfold utf8Encode at ih ⊢
    simp only [List.map_cons, List.flatten_cons]
    rw [show utf8EncodeChar c = [c.toNat] from by
      unfold utf8EncodeChar; rw [if_pos hc]]
    rw [ih (fun d hd => h d (List.mem_cons_of_mem _ hd))]
    rfl

theorem copy_file_bytes_ascii (bs : List Nat) (h : ∀ b ∈ bs, b < 128 ∧ b ≠ 13) :
    copy_file_bytes bs = bs := by
  unfold copy_file_bytes
  rw [utf8DecodeIgnore_ascii bs (fun b hb => (h b hb).1)]
  rw [universalNewlines_noCR _ (by
    intro c hc
    rcases List.mem_map.mp hc with ⟨b, hb, he⟩
    intro hcr
    exact (h b hb).2 (((charOfNat_ascii b (h b hb).1).2).mp (he ▸ hcr)))]
  rw [utf8Encode_ascii _ (by
    intro c hc
    rcases List.mem_map.mp hc with ⟨b, hb, he⟩
    rw [← he, (charOfNat_ascii b (h b hb).1).1]
    exact (h b hb).1)]
  rw [List.map_map]
  have hcongr : ∀ b ∈ bs, (Char.toNat ∘ Char.ofNat) b = id b := by
    intro b hb
    exact (charOfNat_ascii b (h b hb).1).1
  rw [List.map_congr_left hcongr, List.map_id]

/-- Claim C4 counterexample: raw custody copying is NOT byte-identical for
every present text manifest file: a `contacts.txt` whose bytes are
`a CR b` is copied as `a LF b` — the `read_text`/`write_text` round trip of
`_copy_file` translates newlines (and drops invalid UTF-8 bytes), so the
destination differs from the source. -/
theorem raw_copy_not_byte_identical :
    crFsSample "contacts.txt".data = some [97, 13, 98]
    ∧ copy_raw_files crFsSample emptyFs [] "contacts.txt".data
        = some [97, 10, 98]
    ∧ ([97, 10, 98] : List Nat) ≠ [97, 13, 98] := by decide

/-- Claim C4 (amended): an absent manifest entry produces no destination
file and no error; a `.zip` manifest entry is copied byte-identically
(verbatim bytes); a text manifest entry is not copied byte-for-byte in
general — it is written as `copy_file_bytes` of its source (UTF-8 decode
with invalid bytes dropped plus universal-newline translation), so its copy
is byte-identical only when that re-encoding happens to be the identity; in
particular every CR-free ASCII text file round-trips byte-identically,
while text containing CR bytes (see the counterexample) is altered. -/
theorem copy_raw_files_amended :
    (∀ (lf sf : Str → Option (List Nat)) (extra : List Str) (name : Str),
        lf name = none → sf name = none →
        copy_raw_files lf sf extra name = none)
    ∧ (∀ (lf sf : Str → Option (List Nat)) (extra : List Str) (name : Str)
        (bytes : List Nat), name ∈ system_names → hasZipSuffix name = true →
        sf name = some bytes → copy_raw_files lf sf extra name = some bytes)
    ∧ (∀ bytes : List Nat, (∀ b ∈ bytes, b < 128 ∧ b ≠ 13) →
        copy_file_bytes bytes = bytes)
    ∧ (∀ (lf sf : Str → Option (List Nat)) (extra : List Str) (name : Str)
        (bytes : List Nat), name ∈ logical_names → name ∉ system_names →
        hasZipSuffix name = false → lf name = some bytes →
        copy_raw_files lf sf extra name = some (copy_file_bytes bytes)) := by
  refine ⟨?_, ?_, copy_file_bytes_ascii, ?_⟩
  · intro lf sf extra name h1 h2
    unfold copy_raw_files
    rw [h1, h2]
    simp [copyRawEntry]
  · intro lf sf extra name bytes hmem hzip hsf
    unfold copy_raw_files
    rw [hsf, if_pos hmem]
    simp [copyRawEntry, hzip]
  · intro lf sf extra name bytes hlog hnsys hzip hlf
    unfold copy_raw_files
    rw [hlf, if_neg hnsys, if_pos (List.mem_append_left _ hlog)]
    simp [copyRawEntry, hzip]

theorem copy_raw_files_amended_witness :
    copy_file_bytes [104, 111, 108, 97] = [104, 111, 108, 97]
    ∧ copy_raw_files emptyFs emptyFs [] "sms.txt".data = none
    ∧ copy_raw_files emptyFs zipFsSample [] "bugreport.zip".data
        = some [80, 75, 0, 255] :=
  ⟨copy_raw_files_amended.2.2.1 [104, 111, 108, 97] (by decide),
   copy_raw_files_amended.1 emptyFs emptyFs [] "sms.txt".data rfl rfl,
   copy_raw_files_amended.2.1 emptyFs zipFsSample [] "bugreport.zip".data
     [80, 75, 0, 255] (by decide) (by decide) (by decide)⟩

/-- Claim C2, evaluated at the failing input (code bug): a malformed
`whatsapp_messages.csv` makes the unguarded `pd.read_csv` of
`load_whatsapp_mensajes` raise out of `load_all`, aborting the processing of
every remaining artifact (no per-artifact outcome is recorded); with a
well-formed WhatsApp CSV the same case succeeds — and a malformed wifi CSV,
which goes through the guarded `_load_csv`, is absorbed without aborting
anything. -/
theorem load_all_malformed_whatsapp_aborts :
    load_all caseFsMalformedWa = Except.error "ParserError".data
    ∧ load_all caseFsOkWa = Except.ok
        [("sms".data, 1), ("whatsapp_mensajes".data, 1),
         ("exif_media".data, 1)] := by
  constructor <;> rfl

/-- Claim C9: workbook export: with a nonempty table map and a working
writer, the workbook has one data sheet per table and one RESUMEN row per
table; every empty table gets the one-row placeholder sheet; on the concrete
five-nonempty-plus-one-empty scenario this yields exactly six data sheets
and a six-row RESUMEN with the per-sheet row/column counts; and a workbook
build failure is absorbed — the function returns normally, and the CSV
exports are exactly the same as with a working writer (not rolled back). -/
theorem workbook_export :
    (∀ dfs : List (Str × DF), dfs ≠ [] →
        (forensic_excel_build dfs true).map
            (fun wb => (wb.dataSheets.length, wb.resumen.length))
          = some (dfs.length, dfs.length))
    ∧ (∀ (dfs : List (Str × DF)) (wb : Workbook),
        forensic_excel_build dfs true = some wb →
        ∀ p ∈ dfs, dfEmpty p.2 = true →
          (⟨(get_artifact_meta p.1).1, placeholderDF⟩ : SheetX) ∈ wb.dataSheets)
    ∧ placeholderDF.rows.length = 1
    ∧ (∀ (dfs : List (Str × DF)) (writerOk crearExcel : Bool),
        (export_all_from_dfs dfs writerOk crearExcel).csvFiles
          = export_csv_legible_files dfs
        ∧ (export_all_from_dfs dfs false true).workbook = none)
    ∧ ((forensic_excel_build sixTables true).map
          (fun wb => (wb.dataSheets.length, wb.resumen.length)) = some (6, 6)
      ∧ (forensic_excel_build sixTables true).map
          (fun wb => wb.dataSheets.contains ⟨"WHATSAPP_MSG".data, placeholderDF⟩)
          = some true
      ∧ (forensic_excel_build sixTables true).map
          (fun wb => wb.resumen.map (fun r => (r.hoja, r.filas, r.columnas)))
          = some [("CALENDARIO".data, 1, 1), ("CONTACTOS".data, 1, 1),
                  ("IMAGENES_EXIF".data, 1, 1), ("LLAMADAS".data, 1, 1),
                  ("SMS_MMS".data, 1, 2), ("WHATSAPP_MSG".data, 1, 1)]) := by
  refine ⟨?_, ?_, by decide, ?_, by decide, by decide, by decide⟩
  · intro dfs h
    have hne : dfs.isEmpty = false := by
      cases dfs with
      | nil => exact absurd rfl h
      | cons a t => rfl
    simp [forensic_excel_build, hne, excel_sorted_items,
      List.length_insertionSort]
  · intro dfs wb hwb p hp hempty
    by_cases he : dfs.isEmpty
    · simp [forensic_excel_build, he] at hwb
    · simp only [forensic_excel_build, he, Bool.false_eq_true, if_false,
        if_true, Option.some_inj] at hwb
      have hitems : p ∈ excel_sorted_items dfs :=
        (List.perm_insertionSort dfKeyLe dfs).mem_iff.mpr hp
      have hmem := List.mem_map_of_mem (fun q => buildSheet q.1 q.2) hitems
      have hsheet : buildSheet p.1 p.2
          = (⟨(get_artifact_meta p.1).1, placeholderDF⟩ : SheetX) := by
        unfold buildSheet df_norm
        rw [if_pos hempty]
      rw [← hwb]
      show (⟨(get_artifact_meta p.1).1, placeholderDF⟩ : SheetX)
          ∈ List.map (fun q => buildSheet q.1 q.2) (excel_sorted_items dfs)
      rw [← hsheet]
      exact hmem
  · intro dfs writerOk crearExcel
    constructor
    · rfl
    · by_cases he : dfs.isEmpty <;>
        simp [export_all_from_dfs, forensic_excel_build, he]

theorem workbook_export_witness :
    (forensic_excel_build sixTables true).map
        (fun wb => (wb.dataSheets.length, wb.resumen.length)) = some (6, 6)
    ∧ (⟨"WHATSAPP_MSG".data, placeholderDF⟩ : SheetX)
        ∈ ((forensic_excel_build sixTables true).getD ⟨[], []⟩).dataSheets
    ∧ (export_all_from_dfs sixTables false true).workbook = none := by
  refine ⟨workbook_export.1 sixTables (by decide), ?_, ?_⟩
  · have hwb : forensic_excel_build sixTables true
        = some ((forensic_excel_build sixTables true).getD ⟨[], []⟩) := by decide
    have hx := workbook_export.2.1 sixTables _ hwb
      ("whatsapp_mensajes".data, ⟨["fecha_hora".data], []⟩)
      (by decide) (by decide)
    simpa using hx
  · exact (workbook_export.2.2.2.1 sixTables false true).2

end AnalisisForense
